import Mathlib

/-!
Shallow embedding of the Excel mock-interviewer core
(`evaluator.py`, `interview_orchestrator.py`, `questions_agent.py`).

Numeric scores that Python holds as floats are modelled as exact
rationals (`ℚ`); Python integer floor division and modulo on
non-negative ints are `Nat` division and modulo.
-/

namespace Spec2Proof

/-! ### evaluator.py — InterviewReportGenerator -/

/-- `InterviewReportGenerator.__init__` / `_make_hiring_decision`:
`self.hiring_thresholds.get(role, {}).get('minimum_score', 70)`. -/
def hiringThreshold (role : String) : ℚ :=
  if role = "finance" then 75
  else if role = "operations" then 70
  else if role = "data_analytics" then 80
  else 70

structure HiringDecision where
  decision : String
  confidence : String
  meets_threshold : Bool
deriving DecidableEq, Repr

/-- `InterviewReportGenerator._make_hiring_decision(avg_score, role, evaluations)`,
`evaluator.py` lines 271-300.  `scores` stands for the list of
`eval_data['score']` values of `evaluations`. -/
def makeHiringDecision (avg_score : ℚ) (role : String) (scores : List ℚ) : HiringDecision :=
  let threshold := hiringThreshold role
  let base : String × String :=
    if avg_score ≥ 85 then ("STRONG HIRE", "High")
    else if avg_score ≥ threshold then ("CONDITIONAL HIRE", "Medium")
    else if avg_score ≥ 50 then ("NO HIRE - TRAINING REQUIRED", "High")
    else ("REJECT", "High")
  let critical_failures := scores.countP (fun s => decide (s < 30))
  let final : String × String :=
    if critical_failures > scores.length / 2 then ("REJECT", "High") else base
  { decision := final.1, confidence := final.2,
    meets_threshold := decide (avg_score ≥ threshold) }

/-- `generate_final_report`: `avg_score = sum(...) / len(evaluations)`. -/
def meanScore (scores : List ℚ) : ℚ :=
  scores.sum / scores.length

/-- The hiring decision as produced by `generate_final_report`
(`evaluator.py` lines 242-248): the mean score is fed to
`_make_hiring_decision`. -/
def finalReportDecision (scores : List ℚ) (role : String) : HiringDecision :=
  makeHiringDecision (meanScore scores) role scores

/-- Spec-side restatement of the claimed threshold cascade, written from the
spec's words: STRONG HIRE at ≥ 85, CONDITIONAL HIRE at ≥ role threshold,
NO HIRE - TRAINING REQUIRED at ≥ 50, otherwise REJECT (decision, confidence). -/
def specHiringDecision (overall_score : ℚ) (role : String) : String × String :=
  if overall_score ≥ 85 then ("STRONG HIRE", "High")
  else if overall_score ≥ hiringThreshold role then ("CONDITIONAL HIRE", "Medium")
  else if overall_score ≥ 50 then ("NO HIRE - TRAINING REQUIRED", "High")
  else ("REJECT", "High")

/-! ### interview_orchestrator.py — consistency classification -/

/-- Population variance of the score list, as computed inside
`InterviewOrchestrator._calculate_consistency` (lines 315-317):
`variance = sum((score - avg)**2) / len(scores)`. -/
def popVariance (scores : List ℚ) : ℚ :=
  let avg := scores.sum / scores.length
  (scores.map (fun s => (s - avg) ^ 2)).sum / scores.length

/-- `InterviewOrchestrator._calculate_consistency` (lines 309-326).
The source compares `std_dev = variance ** 0.5` against 10, 20, 30; since
both sides are non-negative, `std_dev ≤ c` holds exactly when
`variance ≤ c ^ 2`, which is the comparison used here. -/
def calcConsistency (scores : List ℚ) : String :=
  if scores.length < 2 then "insufficient_data"
  else
    let variance := popVariance scores
    if variance ≤ 100 then "very_consistent"
    else if variance ≤ 400 then "consistent"
    else if variance ≤ 900 then "somewhat_variable"
    else "highly_variable"

/-! ### questions_agent.py — stored question records -/

/-- One record of `QuestionStorageAgent.questions`.  Performance-history
entries carry a timestamp and outcome tag besides the score; only the
score takes part in any claimed property, so the history is kept as the
list of recorded scores. -/
structure QuestionRecord where
  id : Int
  category : String
  difficulty : String
  usage_count : Nat
  avg_score : ℚ
  effectiveness_score : ℚ
  performance_history : List ℚ
deriving DecidableEq, Repr

/-- `QuestionStorageAgent.store_question`: the fresh effectiveness fields
attached to a stored question (`usage_count=0`, `avg_score=0.0`,
`effectiveness_score=0.5`, empty history). -/
def storeQuestion (id : Int) (category difficulty : String) : QuestionRecord :=
  { id := id, category := category, difficulty := difficulty,
    usage_count := 0, avg_score := 0, effectiveness_score := 1/2,
    performance_history := [] }

/-- `QuestionStorageAgent.update_question_performance(question_id, score)`
(lines 135-156).  The loop updates the first record whose id matches and
then `break`s; a non-matching call leaves the list unchanged.
`eff` stands for `self._calculate_effectiveness`.
Modelled from the spec: `_calculate_effectiveness` is called by the source
but its body is not in `src/`; the spec fixes only a monotonicity contract
for it ("the exact mapping is an implementation detail"), so it is kept
abstract as the parameter `eff`, applied to the already-updated record as
in the source. -/
def updateQuestionPerformance (eff : QuestionRecord → ℚ) (question_id : Int)
    (score : ℚ) : List QuestionRecord → List QuestionRecord
  | [] => []
  | q :: qs =>
    if q.id = question_id then
      let count : Nat := q.usage_count + 1
      let q' : QuestionRecord :=
        { q with usage_count := count,
                 avg_score := (q.avg_score * (count - 1 : ℕ) + score) / (count : ℚ),
                 performance_history := q.performance_history ++ [score] }
      { q' with effectiveness_score := eff q' } :: qs
    else q :: updateQuestionPerformance eff question_id score qs

/-- A whole sequence of `update_question_performance` calls, applied in
order to the stored list. -/
def applyOutcomes (eff : QuestionRecord → ℚ) (calls : List (Int × ℚ))
    (qs : List QuestionRecord) : List QuestionRecord :=
  calls.foldl (fun acc c => updateQuestionPerformance eff c.1 c.2 acc) qs

/-- The storage invariant claimed for every record: the usage count is the
history length and `avg_score` is the exact mean of the recorded scores
(the empty mean being `0/0 = 0` in `ℚ`, matching the initial `0.0`). -/
def recInv (q : QuestionRecord) : Prop :=
  q.usage_count = q.performance_history.length ∧
  q.avg_score = q.performance_history.sum / (q.performance_history.length : ℚ)

/-! ### Python's stable sort (`list.sort` / `sorted` with `reverse=True`)

`sorted(xs, key=k, reverse=True)` is a stable descending sort: elements
with equal keys keep their original relative order.  Insertion sort with
the relation `key b ≤ key a` is such a sort (each element is inserted in
front of exactly the already-placed elements whose key is `≤` its own,
all of which come later in the input), and a stable sort of a list for a
given total preorder is unique, so this is the function the source
computes. -/

def sortDescBy {α : Type} (key : α → ℚ) (l : List α) : List α :=
  l.insertionSort (fun a b => key b ≤ key a)

/-! ### questions_agent.py — QuestionStorageAgent.get_best_questions -/

/-- A loosely typed Python value, used for the `category` / `difficulty`
filter parameters of `get_best_questions` (Python compares them with `==`
against string-valued record fields, so an `int` argument matches
nothing). -/
inductive PyVal where
  | str : String → PyVal
  | int : Int → PyVal
deriving DecidableEq, Repr

/-- The filtering part of `get_best_questions` (lines 160-165):
`if category: ... if difficulty: ...`. -/
def filterQuestions (category difficulty : Option PyVal)
    (qs : List QuestionRecord) : List QuestionRecord :=
  let f1 := match category with
    | none => qs
    | some c => qs.filter (fun q => decide (PyVal.str q.category = c))
  match difficulty with
  | none => f1
  | some d => f1.filter (fun q => decide (PyVal.str q.difficulty = d))

/-- `QuestionStorageAgent.get_best_questions(category, difficulty, count)`
(lines 158-169): filter, stable-sort by `effectiveness_score` descending,
take the first `count`. -/
def getBestQuestions (category difficulty : Option PyVal) (count : Nat)
    (qs : List QuestionRecord) : List QuestionRecord :=
  (sortDescBy (fun q => q.effectiveness_score) (filterQuestions category difficulty qs)).take count

/-- Stable insertion step for the ordering the spec claims: effectiveness
descending, ties by `usage_count` descending. -/
def insertSpecOrder (x : QuestionRecord) : List QuestionRecord → List QuestionRecord
  | [] => [x]
  | y :: ys =>
    if x.effectiveness_score > y.effectiveness_score ∨
       (x.effectiveness_score = y.effectiveness_score ∧ x.usage_count ≥ y.usage_count)
    then x :: y :: ys
    else y :: insertSpecOrder x ys

def sortSpecOrder : List QuestionRecord → List QuestionRecord
  | [] => []
  | x :: xs => insertSpecOrder x (sortSpecOrder xs)

/-- Spec-side restatement of `best(...)` written from the spec's words:
ordered by `effectiveness_score` descending, ties broken by `usage_count`
descending, remaining ties by insertion order.  Kept only to be compared
against `getBestQuestions`. -/
def getBestQuestionsSpec (category difficulty : Option PyVal) (count : Nat)
    (qs : List QuestionRecord) : List QuestionRecord :=
  (sortSpecOrder (filterQuestions category difficulty qs)).take count

/-! ### questions_agent.py — QuestionGeneratorAgent -/

/-- The inner loop of `generate_interview_questions` (lines 72-77): run
`n` iterations; each calls `_generate_single_question` and appends the
result when it is not `None` and its id is unused, marking the id used.
Modelled from the spec: `_generate_single_question` draws on
`random.choice`, `_get_curated_question` and `_fill_template`, the last
two of which are not in `src/`; the spec (§4.1) fixes only that synthesis
may fail ("returns nothing ... when no template matches"), so each call is
abstracted as `oracle idx : Option QuestionRecord`, with `idx` counting
the calls made so far.  Returns the appended questions, the updated
used-id set, and the next call index. -/
def genQuestions (oracle : Nat → Option QuestionRecord) :
    Nat → Nat → List Int → List QuestionRecord × List Int × Nat
  | 0, idx, used => ([], used, idx)
  | n + 1, idx, used =>
    match oracle idx with
    | some q =>
      if q.id ∈ used then genQuestions oracle n (idx + 1) used
      else
        let r := genQuestions oracle n (idx + 1) (q.id :: used)
        (q :: r.1, r.2)
    | none => genQuestions oracle n (idx + 1) used

/-- `QuestionGeneratorAgent.generate_interview_questions(role, count)`
(lines 60-79): `count//3 + 1` attempts at `basic`, `count//3 + 1` at
`intermediate`, `count//3` at `advanced` (insertion order of the
`difficulty_distribution` dict), then `questions[:count]`.  `used` is the
agent's `used_questions` set on entry. -/
def generateInterviewQuestions (oracle : Nat → Option QuestionRecord)
    (idx : Nat) (used : List Int) (count : Nat) :
    List QuestionRecord × List Int × Nat :=
  let b := genQuestions oracle (count / 3 + 1) idx used
  let i := genQuestions oracle (count / 3 + 1) b.2.2 b.2.1
  let a := genQuestions oracle (count / 3) i.2.2 i.2.1
  ((b.1 ++ i.1 ++ a.1).take count, a.2)

/-! ### interview_orchestrator.py — selection and balancing -/

/-- The `target_distribution` dict of
`InterviewOrchestrator._balance_question_selection` (lines 96-100), as
(basic, intermediate, advanced). -/
def targetDistribution (target_count : Nat) : Nat × Nat × Nat :=
  (target_count / 3 + (if target_count % 3 > 0 then 1 else 0),
   target_count / 3 + (if target_count % 3 > 1 then 1 else 0),
   target_count / 3)

/-- `InterviewOrchestrator._balance_question_selection(questions,
target_count)` (lines 82-117). -/
def balanceQuestionSelection (questions : List QuestionRecord)
    (target_count : Nat) : List QuestionRecord :=
  if questions.length ≤ target_count then questions
  else
    let t := targetDistribution target_count
    let pick := fun (d : String) (n : Nat) =>
      (sortDescBy (fun q => q.effectiveness_score)
        (questions.filter (fun q => decide (q.difficulty = d)))).take n
    let selected := pick "basic" t.1 ++ pick "intermediate" t.2.1 ++ pick "advanced" t.2.2
    let filled :=
      if selected.length < target_count then
        selected ++
          (sortDescBy (fun q => q.effectiveness_score)
            (questions.filter (fun q => decide (q ∉ selected)))).take
            (target_count - selected.length)
      else selected
    filled.take target_count

/-- `InterviewOrchestrator._select_interview_questions(role, count)`
(lines 59-80).  The source calls
`self.storage_agent.get_best_questions(role, count)`, which binds `role`
to the `category` parameter and the integer `count` to the `difficulty`
parameter (the `count` parameter keeps its default 5). -/
def selectInterviewQuestions (oracle : Nat → Option QuestionRecord)
    (idx : Nat) (used : List Int) (storage : List QuestionRecord)
    (role : String) (count : Nat) : List QuestionRecord :=
  let stored := getBestQuestions (some (.str role)) (some (.int count)) 5 storage
  let all :=
    if stored.length < count then
      stored ++ (generateInterviewQuestions oracle idx used (count - stored.length)).1
    else stored.take count
  balanceQuestionSelection all count

/-! ### interview_orchestrator.py — session state machine -/

structure SessionResponse where
  question_id : Int
  response : String
  timestamp : String
deriving DecidableEq, Repr

/-- `self.current_interview` dict.  An evaluation is represented by its
score (the only evaluation component any claimed session property
mentions). -/
structure Session where
  interview_id : String
  role : String
  questions : List QuestionRecord
  responses : List SessionResponse
  evaluations : List ℚ
  current_question_index : Nat
  status : String
  start_time : String
  end_time : Option String
  pause_time : Option String
  resume_time : Option String
deriving DecidableEq, Repr

/-- The orchestrator's mutable state: the live session slot, the history
log, and the storage agent's question list. -/
structure OrchState where
  current_interview : Option Session
  interview_history : List Session
  storage : List QuestionRecord
deriving DecidableEq, Repr

inductive CallResult where
  | error : String → CallResult
  | ok : String → CallResult
deriving DecidableEq, Repr

def CallResult.isError : CallResult → Bool
  | .error _ => true
  | .ok _ => false

/-- `InterviewOrchestrator.get_current_question` (lines 119-130):
`questions[current_index]` if in range, else `None`. -/
def getCurrentQuestion (s : Session) : Option QuestionRecord :=
  s.questions.get? s.current_question_index

/-- `InterviewOrchestrator.submit_answer(response)` (lines 132-181),
together with the `_complete_interview` continuation (lines 183-207).
`score` is the evaluator's score for the answer, `now` the timestamp, and
`eff` the abstract effectiveness recomputation passed through to
`update_question_performance`. -/
def submitAnswer (eff : QuestionRecord → ℚ) (score : ℚ)
    (response now : String) (st : OrchState) : OrchState × CallResult :=
  match st.current_interview with
  | none => (st, .error "No active interview session")
  | some s =>
    match getCurrentQuestion s with
    | none => (st, .error "No current question available")
    | some cq =>
      let s1 := { s with
        responses := s.responses ++ [SessionResponse.mk cq.id response now],
        evaluations := s.evaluations ++ [score] }
      let storage' := updateQuestionPerformance eff cq.id score st.storage
      let s2 := { s1 with current_question_index := s1.current_question_index + 1 }
      if s2.questions.length ≤ s2.current_question_index then
        let s3 := { s2 with status := "completed", end_time := some now }
        ({ current_interview := none,
           interview_history := st.interview_history ++ [s3],
           storage := storage' }, .ok "completed")
      else
        ({ st with current_interview := some s2, storage := storage' },
         .ok "continue")

/-- `InterviewOrchestrator.pause_interview` (lines 451-459). -/
def pauseInterview (now : String) (st : OrchState) : OrchState × CallResult :=
  match st.current_interview with
  | none => (st, .error "No active interview to pause")
  | some s =>
    let s' := { s with status := "paused", pause_time := some now }
    ({ st with current_interview := some s' }, .ok "paused")

/-- `InterviewOrchestrator.resume_interview` (lines 461-477). -/
def resumeInterview (now : String) (st : OrchState) : OrchState × CallResult :=
  match st.current_interview with
  | none => (st, .error "No interview to resume")
  | some s =>
    if s.status = "paused" then
      let s' := { s with status := "in_progress", resume_time := some now }
      ({ st with current_interview := some s' }, .ok "resumed")
    else (st, .error "Interview is not in paused state")

/-! ### evaluator.py — AIAnswerReviewer text parse and fallback -/

/-- The four numeric fields of an evaluation.  They are `Int` because the
text-parse path computes `score - 10` and `score - 5` without clamping. -/
structure EvaluationScores where
  score : Int
  technical_accuracy : Int
  depth : Int
  practical_application : Int
deriving DecidableEq, Repr

/-- Python's substring test `needle in hay`, on character lists. -/
def containsSub (needle hay : List Char) : Bool :=
  decide (needle <:+: hay)

/-- Python's `str.lower()` on the character list (ASCII case folding, the
only case the source's tokens exercise). -/
def lowerStr (cs : List Char) : List Char :=
  cs.map Char.toLower

/-- Python's `str.split('\n')`. -/
def splitLines : List Char → List (List Char)
  | [] => [[]]
  | c :: cs =>
    if c = '\n' then [] :: splitLines cs
    else
      match splitLines cs with
      | [] => [[c]]
      | l :: ls => (c :: l) :: ls

/-- The number of maximal non-whitespace runs — `len(response.split())`. -/
def countWords : List Char → Bool → Nat
  | [], _ => 0
  | c :: cs, inWord =>
    if c.isWhitespace then countWords cs false
    else (if inWord then 0 else 1) + countWords cs true

/-- The first maximal digit run of the line — `re.findall(r'\d+', line)[0]`
when it exists. -/
def firstDigitRun : List Char → Option (List Char)
  | [] => none
  | c :: cs =>
    if c.isDigit then some (c :: cs.takeWhile Char.isDigit)
    else firstDigitRun cs

def digitsToNat (ds : List Char) : Nat :=
  ds.foldl (fun n c => n * 10 + (c.toNat - '0'.toNat)) 0

/-- The score-extraction loop of `AIAnswerReviewer._parse_text_response`
(lines 141-147): scan the lines; on a line containing `score`
(case-insensitive) or `/100`, take the first number, clamp above at 100
and stop; default 70. -/
def extractScore : List (List Char) → Int
  | [] => 70
  | line :: rest =>
    if containsSub "score".toList (lowerStr line) || containsSub "/100".toList line then
      match firstDigitRun line with
      | some ds => min (digitsToNat ds : Int) 100
      | none => extractScore rest
    else extractScore rest

/-- `AIAnswerReviewer._parse_text_response(response)` (lines 136-158),
numeric fields only. -/
def parseTextResponse (response : String) : EvaluationScores :=
  let score := extractScore (splitLines response.toList)
  { score := score, technical_accuracy := score,
    depth := score - 10, practical_application := score - 5 }

/-- `AIAnswerReviewer._fallback_evaluation(question, response, error)`
(lines 160-190), numeric fields only: base 40, length bonus, +20 for a
known Excel function token, +15 for `=` or `()`, then clamp. -/
def fallbackEvaluation (response : String) : EvaluationScores :=
  let words := countWords response.toList false
  let s1 : Int :=
    if words > 30 then 40 + 25
    else if words > 15 then 40 + 15
    else if words > 5 then 40 + 10
    else 40
  let excelFunctions := ["sum", "average", "vlookup", "if", "count", "pivot", "index", "match"]
  let s2 :=
    if excelFunctions.any (fun f => containsSub f.toList (lowerStr response.toList))
    then s1 + 20 else s1
  let s3 :=
    if containsSub "=".toList response.toList || containsSub "()".toList response.toList
    then s2 + 15 else s2
  { score := min s3 100, technical_accuracy := min s3 100,
    depth := max (s3 - 10) 0, practical_application := max (s3 - 5) 0 }

/-! ### Concrete sample data used by witnesses and counterexamples -/

def sampleQuestionA : QuestionRecord :=
  { id := 1, category := "basic_formulas", difficulty := "basic",
    usage_count := 0, avg_score := 0, effectiveness_score := 1/2,
    performance_history := [] }

def sampleQuestionB : QuestionRecord :=
  { id := 2, category := "data_analysis", difficulty := "basic",
    usage_count := 5, avg_score := 70, effectiveness_score := 1/2,
    performance_history := [70, 70, 70, 70, 70] }

def pausedSession : Session :=
  { interview_id := "interview_20250101_120000_1234", role := "operations",
    questions := [sampleQuestionA, sampleQuestionB], responses := [],
    evaluations := [], current_question_index := 0, status := "paused",
    start_time := "t0", end_time := none, pause_time := some "t0p",
    resume_time := none }

def pausedState : OrchState :=
  { current_interview := some pausedSession, interview_history := [],
    storage := [sampleQuestionA, sampleQuestionB] }

/-! ## Helper lemmas -/

theorem sortDescBy_perm {α : Type} (key : α → ℚ) (l : List α) :
    List.Perm (sortDescBy key l) l :=
  List.perm_insertionSort _ l

theorem sortDescBy_sorted {α : Type} (key : α → ℚ) (l : List α) :
    (sortDescBy key l).Sorted (fun a b => key b ≤ key a) := by
  haveI : IsTotal α (fun a b => key b ≤ key a) := ⟨fun a b => le_total (key b) (key a)⟩
  haveI : IsTrans α (fun a b => key b ≤ key a) := ⟨fun _ _ _ hab hbc => le_trans hbc hab⟩
  exact List.sorted_insertionSort _ l

/-- Inserting `x` does not disturb the subsequence of elements whose key
equals a fixed `k`: every element the insertion walks past has a key
strictly greater than `key x`. -/
theorem filter_orderedInsert_key {α : Type} (key : α → ℚ) (k : ℚ) (x : α) :
    ∀ l : List α,
      (l.orderedInsert (fun a b => key b ≤ key a) x).filter
          (fun a => decide (key a = k)) =
        if key x = k then
          x :: l.filter (fun a => decide (key a = k))
        else l.filter (fun a => decide (key a = k))
  | [] => by
    by_cases h : key x = k <;> simp [List.orderedInsert, h]
  | y :: ys => by
    simp only [List.orderedInsert]
    by_cases hyx : key y ≤ key x
    · rw [if_pos hyx]
      by_cases hx : key x = k <;> simp [List.filter_cons, hx]
    · rw [if_neg hyx]
      have ih := filter_orderedInsert_key key k x ys
      by_cases hx : key x = k
      · have hy : ¬ key y = k := fun hyk => hyx (le_of_eq (hyk.trans hx.symm))
        simp [List.filter_cons, hx, hy] at ih ⊢
        exact ih
      · by_cases hy : key y = k <;> simp [List.filter_cons, hx, hy] at ih ⊢ <;>
          exact ih

/-- Stability of the Python sort: the elements with any fixed key value
appear in the output in their input order. -/
theorem filter_sortDescBy_key {α : Type} (key : α → ℚ) (k : ℚ) :
    ∀ l : List α,
      (sortDescBy key l).filter (fun a => decide (key a = k)) =
        l.filter (fun a => decide (key a = k))
  | [] => rfl
  | x :: xs => by
    have ih := filter_sortDescBy_key key k xs
    simp only [sortDescBy, List.insertionSort] at ih ⊢
    rw [filter_orderedInsert_key key k x (xs.insertionSort fun a b => key b ≤ key a)]
    by_cases hx : key x = k <;> simp [List.filter_cons, hx, ih]

/-! ## Claims -/

/-- C1: for a non-empty evaluation list in which at most half of the
scores are below 30, the hiring decision follows the threshold cascade on
the mean score (thresholds finance 75 / operations 70 / data_analytics 80
/ default 70): ≥ 85 STRONG HIRE (High), else ≥ threshold CONDITIONAL HIRE
(Medium), else ≥ 50 NO HIRE - TRAINING REQUIRED (High), else REJECT
(High); in particular on role "operations" the means 85, 72, 55, 20 give
those four decisions.  (The decision labels are the source's exact
strings; the spec renders the hyphen of "NO HIRE - TRAINING REQUIRED" as
an en dash.) -/
theorem C1_hiring_decision_cascade (scores : List ℚ) (role : String)
    (_hne : scores ≠ [])
    (hhalf : 2 * scores.countP (fun s => decide (s < 30)) ≤ scores.length) :
    ((finalReportDecision scores role).decision,
      (finalReportDecision scores role).confidence) =
        specHiringDecision (meanScore scores) role ∧
    (role = "operations" →
      (meanScore scores = 85 →
        (finalReportDecision scores role).decision = "STRONG HIRE") ∧
      (meanScore scores = 72 →
        (finalReportDecision scores role).decision = "CONDITIONAL HIRE") ∧
      (meanScore scores = 55 →
        (finalReportDecision scores role).decision = "NO HIRE - TRAINING REQUIRED") ∧
      (meanScore scores = 20 →
        (finalReportDecision scores role).decision = "REJECT")) := by
  have hov : ¬ scores.countP (fun s => decide (s < 30)) > scores.length / 2 := by
    omega
  have hmain : ((finalReportDecision scores role).decision,
      (finalReportDecision scores role).confidence) =
        specHiringDecision (meanScore scores) role := by
    simp only [finalReportDecision, makeHiringDecision, specHiringDecision,
      if_neg hov]
  have hd : (finalReportDecision scores role).decision =
      (specHiringDecision (meanScore scores) role).1 := congrArg Prod.fst hmain
  have hth : hiringThreshold "operations" = 70 := rfl
  refine ⟨hmain, fun hrole => ⟨fun h85 => ?_, fun h72 => ?_, fun h55 => ?_,
    fun h20 => ?_⟩⟩
  · rw [hd, h85, hrole]
    norm_num [specHiringDecision, hth]
  · rw [hd, h72, hrole]
    norm_num [specHiringDecision, hth]
  · rw [hd, h55, hrole]
    norm_num [specHiringDecision, hth]
  · rw [hd, h20, hrole]
    norm_num [specHiringDecision, hth]

theorem C1_hiring_decision_cascade_witness :
    ((finalReportDecision [(0 : ℚ), 40] "operations").decision,
      (finalReportDecision [(0 : ℚ), 40] "operations").confidence) =
        specHiringDecision (meanScore [(0 : ℚ), 40]) "operations" ∧
    ("operations" = "operations" →
      (meanScore [(0 : ℚ), 40] = 85 →
        (finalReportDecision [(0 : ℚ), 40] "operations").decision = "STRONG HIRE") ∧
      (meanScore [(0 : ℚ), 40] = 72 →
        (finalReportDecision [(0 : ℚ), 40] "operations").decision = "CONDITIONAL HIRE") ∧
      (meanScore [(0 : ℚ), 40] = 55 →
        (finalReportDecision [(0 : ℚ), 40] "operations").decision = "NO HIRE - TRAINING REQUIRED") ∧
      (meanScore [(0 : ℚ), 40] = 20 →
        (finalReportDecision [(0 : ℚ), 40] "operations").decision = "REJECT")) :=
  C1_hiring_decision_cascade [(0 : ℚ), 40] "operations" (by simp)
    (by norm_num [List.countP_cons])

/-- C5: whenever strictly more than half of the scores are below 30, the
decision is REJECT for every role, regardless of the mean. -/
theorem C5_critical_failure_override (scores : List ℚ) (role : String)
    (_hne : scores ≠ [])
    (hmaj : 2 * scores.countP (fun s => decide (s < 30)) > scores.length) :
    (finalReportDecision scores role).decision = "REJECT" := by
  have hov : scores.countP (fun s => decide (s < 30)) > scores.length / 2 := by
    omega
  simp only [finalReportDecision, makeHiringDecision, if_pos hov]

theorem C5_critical_failure_override_witness :
    (finalReportDecision [(90 : ℚ), 20, 25, 10] "general").decision = "REJECT" :=
  C5_critical_failure_override [(90 : ℚ), 20, 25, 10] "general" (by simp)
    (by norm_num [List.countP_cons])

/-- C2 counterexample: the balancing step's target distribution for
`count = 7` is basic 3, intermediate 2, advanced 2 — not the claimed
basic 3, intermediate 3, advanced 1. -/
theorem C2_count7_counterexample :
    targetDistribution 7 = (3, 2, 2) ∧ targetDistribution 7 ≠ (3, 3, 1) := by
  decide

/-- C2 amended: the balancing step splits `count` by the largest-remainder
rule with base `count / 3`; the first extra unit (when `count % 3 ≥ 1`)
goes to basic and the second (when `count % 3 = 2`) to intermediate; the
buckets always sum to `count`; `count = 6` gives (2, 2, 2) and
`count = 7` gives basic 3, intermediate 2, advanced 2. -/
theorem C2_bucket_split (count : Nat) :
    (targetDistribution count).1 + (targetDistribution count).2.1 +
        (targetDistribution count).2.2 = count ∧
    (targetDistribution count).1 =
      count / 3 + (if 1 ≤ count % 3 then 1 else 0) ∧
    (targetDistribution count).2.1 =
      count / 3 + (if count % 3 = 2 then 1 else 0) ∧
    (targetDistribution count).2.2 = count / 3 ∧
    targetDistribution 6 = (2, 2, 2) ∧
    targetDistribution 7 = (3, 2, 2) := by
  refine ⟨?_, ?_, ?_, by simp [targetDistribution], by decide, by decide⟩
  · simp only [targetDistribution]
    split_ifs <;> omega
  · simp only [targetDistribution]
    split_ifs <;> omega
  · simp only [targetDistribution]
    split_ifs <;> omega

/-- C6 counterexample: the scores [95, 40, 60, 85] have population
variance 462.5, i.e. standard deviation ≈ 21.5 ≤ 30, so the code
classifies them `somewhat_variable`, not the claimed `highly_variable`. -/
theorem C6_variability_counterexample :
    calcConsistency [95, 40, 60, 85] = "somewhat_variable" ∧
    calcConsistency [95, 40, 60, 85] ≠ "highly_variable" := by
  have h : calcConsistency [95, 40, 60, 85] = "somewhat_variable" := by
    norm_num [calcConsistency, popVariance]
  exact ⟨h, by rw [h]; decide⟩

open Classical in
/-- C6 amended: the consistency label is computed from the population
standard deviation `s` of the scores exactly as the claim's general rule
says (fewer than 2 scores → insufficient_data, `s ≤ 10` →
very_consistent, `s ≤ 20` → consistent, `s ≤ 30` → somewhat_variable,
else highly_variable); [80,82,79,81] gives very_consistent, but
[95,40,60,85] (s ≈ 21.5) gives somewhat_variable, not the claimed
highly_variable. -/
theorem C6_consistency_classification (scores : List ℚ) :
    calcConsistency scores =
      (if scores.length < 2 then "insufficient_data"
       else if Real.sqrt ((popVariance scores : ℚ) : ℝ) ≤ 10 then "very_consistent"
       else if Real.sqrt ((popVariance scores : ℚ) : ℝ) ≤ 20 then "consistent"
       else if Real.sqrt ((popVariance scores : ℚ) : ℝ) ≤ 30 then "somewhat_variable"
       else "highly_variable") ∧
    calcConsistency [80, 82, 79, 81] = "very_consistent" ∧
    calcConsistency [95, 40, 60, 85] = "somewhat_variable" := by
  refine ⟨?_, by norm_num [calcConsistency, popVariance],
    by norm_num [calcConsistency, popVariance]⟩
  by_cases hlen : scores.length < 2
  · simp only [calcConsistency, if_pos hlen]
  · have hsq : ∀ c : ℚ, 0 ≤ c →
        (Real.sqrt ((popVariance scores : ℚ) : ℝ) ≤ (c : ℝ) ↔
          popVariance scores ≤ c ^ 2) := by
      intro c hc
      rw [Real.sqrt_le_left (by exact_mod_cast hc)]
      exact_mod_cast Iff.rfl
    have h10 := hsq 10 (by norm_num)
    have h20 := hsq 20 (by norm_num)
    have h30 := hsq 30 (by norm_num)
    norm_num at h10 h20 h30
    simp only [calcConsistency, if_neg hlen]
    by_cases hv1 : popVariance scores ≤ 100
    · rw [if_pos hv1, if_pos (h10.mpr hv1)]
    · rw [if_neg hv1, if_neg (fun hh => hv1 (h10.mp hh))]
      by_cases hv2 : popVariance scores ≤ 400
      · rw [if_pos hv2, if_pos (h20.mpr hv2)]
      · rw [if_neg hv2, if_neg (fun hh => hv2 (h20.mp hh))]
        by_cases hv3 : popVariance scores ≤ 900
        · rw [if_pos hv3, if_pos (h30.mpr hv3)]
        · rw [if_neg hv3, if_neg (fun hh => hv3 (h30.mp hh))]

theorem updatePerf_preserves_recInv (eff : QuestionRecord → ℚ) (qid : Int)
    (score : ℚ) :
    ∀ qs : List QuestionRecord, (∀ q ∈ qs, recInv q) →
      ∀ q ∈ updateQuestionPerformance eff qid score qs, recInv q
  | [], _ => by simp [updateQuestionPerformance]
  | q :: qs, h => by
    simp only [updateQuestionPerformance]
    by_cases hid : q.id = qid
    · rw [if_pos hid]
      intro r hr
      rcases List.mem_cons.mp hr with hr | hr
      · subst hr
        obtain ⟨hu, ha⟩ := h q (List.mem_cons_self q qs)
        refine ⟨by simp [hu], ?_⟩
        simp only [List.sum_append, List.sum_cons, List.sum_nil,
          List.length_append, List.length_cons, List.length_nil]
        rw [ha, hu, Nat.add_sub_cancel]
        rcases Nat.eq_zero_or_pos q.performance_history.length with h0 | hpos
        · rw [h0, List.length_eq_zero.mp h0]
          norm_num
        · have hne : (q.performance_history.length : ℚ) ≠ 0 :=
            Nat.cast_ne_zero.mpr hpos.ne'
          rw [div_mul_cancel₀ _ hne]
          push_cast
          ring_nf
      · exact h r (List.mem_cons_of_mem _ hr)
    · rw [if_neg hid]
      intro r hr
      rcases List.mem_cons.mp hr with hr | hr
      · subst hr
        exact h r (List.mem_cons_self r qs)
      · exact updatePerf_preserves_recInv eff qid score qs
          (fun p hp => h p (List.mem_cons_of_mem _ hp)) r hr

theorem updatePerf_not_found (eff : QuestionRecord → ℚ) (qid : Int) (score : ℚ) :
    ∀ qs : List QuestionRecord, (∀ q ∈ qs, q.id ≠ qid) →
      updateQuestionPerformance eff qid score qs = qs
  | [], _ => rfl
  | q :: qs, h => by
    simp only [updateQuestionPerformance, if_neg (h q (List.mem_cons_self q qs))]
    rw [updatePerf_not_found eff qid score qs
      (fun p hp => h p (List.mem_cons_of_mem _ hp))]

/-- C3: across any sequence of `update_question_performance` calls applied
to a store whose records satisfy the invariant, every record keeps
`usage_count = len(performance_history)` and `avg_score` equal to the
exact mean of its recorded scores, and a call whose id matches no stored
record changes nothing.  `eff` is the abstract effectiveness
recomputation (it does not touch the fields the invariant speaks about). -/
theorem C3_storage_invariant (eff : QuestionRecord → ℚ) (calls : List (Int × ℚ))
    (qs : List QuestionRecord) (hinv : ∀ q ∈ qs, recInv q) :
    (∀ q ∈ applyOutcomes eff calls qs, recInv q) ∧
    (∀ qid score, (∀ q ∈ qs, q.id ≠ qid) →
      updateQuestionPerformance eff qid score qs = qs) := by
  constructor
  · induction calls generalizing qs with
    | nil => simpa [applyOutcomes] using hinv
    | cons c cs ih =>
      simp only [applyOutcomes, List.foldl_cons] at ih ⊢
      exact ih _ (updatePerf_preserves_recInv eff c.1 c.2 qs hinv)
  · exact fun qid score h => updatePerf_not_found eff qid score qs h

theorem C3_storage_invariant_witness :
    (∀ q ∈ applyOutcomes (fun _ => 1/2)
        [((1 : Int), (80 : ℚ)), (1, 60), (9, 10)]
        [storeQuestion 1 "basic_formulas" "basic"], recInv q) ∧
    (∀ qid score,
      (∀ q ∈ [storeQuestion 1 "basic_formulas" "basic"], q.id ≠ qid) →
      updateQuestionPerformance (fun _ => 1/2) qid score
          [storeQuestion 1 "basic_formulas" "basic"] =
        [storeQuestion 1 "basic_formulas" "basic"]) :=
  C3_storage_invariant (fun _ => 1/2) [((1 : Int), (80 : ℚ)), (1, 60), (9, 10)]
    [storeQuestion 1 "basic_formulas" "basic"]
    (by simp [storeQuestion, recInv])

/-- C4 counterexample: on a paused session with questions remaining,
`submit_answer` does not fail — it returns the continue result and
advances the cursor, mutating the session, because the source never
checks `status` in `submit_answer`. -/
theorem C4_paused_submit_counterexample :
    pausedSession.status ≠ "in_progress" ∧
    (submitAnswer (fun _ => 1/2) 50 "answer" "t1" pausedState).2 = .ok "continue" ∧
    ((submitAnswer (fun _ => 1/2) 50 "answer" "t1" pausedState).1.current_interview.map
      (fun s => s.current_question_index)) = some 1 ∧
    pausedState.current_interview.map (fun s => s.current_question_index) = some 0 := by
  decide

/-- C4 amended: the state guards the source actually implements:
`submit_answer` fails with an error and leaves the whole orchestrator
state unchanged exactly when there is no active session or the cursor is
past the last question; `pause` fails (state unchanged) when there is no
active session; `resume` fails (state unchanged) whenever there is no
active session or the live session's status is not `paused`.  The status
is not checked by `submit_answer` or `pause`, so a paused session accepts
answers (see the counterexample) and can be re-paused. -/
theorem C4_invalid_state_guards (eff : QuestionRecord → ℚ) (score : ℚ)
    (response now : String) (st : OrchState) :
    ((st.current_interview = none ∨
        (∃ s, st.current_interview = some s ∧
          s.questions.length ≤ s.current_question_index)) →
      (submitAnswer eff score response now st).1 = st ∧
      ((submitAnswer eff score response now st).2).isError = true) ∧
    (st.current_interview = none →
      pauseInterview now st = (st, .error "No active interview to pause")) ∧
    ((∀ s, st.current_interview = some s → s.status ≠ "paused") →
      (resumeInterview now st).1 = st ∧
      ((resumeInterview now st).2).isError = true) := by
  refine ⟨?_, ?_, ?_⟩
  · rintro (hnone | ⟨s, hs, hlen⟩)
    · simp [submitAnswer, hnone, CallResult.isError]
    · have hq : getCurrentQuestion s = none := by
        unfold getCurrentQuestion
        exact List.get?_eq_none.mpr hlen
      simp [submitAnswer, hs, hq, CallResult.isError]
  · intro hnone
    simp [pauseInterview, hnone]
  · intro h
    cases hc : st.current_interview with
    | none => simp [resumeInterview, hc, CallResult.isError]
    | some s =>
      have hns := h s hc
      simp [resumeInterview, hc, if_neg hns, CallResult.isError]

theorem C4_invalid_state_guards_witness :
    (submitAnswer (fun _ => 1/2) 0 "" "" ⟨none, [], []⟩).1 = ⟨none, [], []⟩ ∧
    ((submitAnswer (fun _ => 1/2) 0 "" "" (⟨none, [], []⟩ : OrchState)).2).isError = true :=
  (C4_invalid_state_guards (fun _ => 1/2) 0 "" "" ⟨none, [], []⟩).1 (Or.inl rfl)

/-- C7 counterexample: two stored questions with equal
`effectiveness_score` but different `usage_count` come back in insertion
order, not in the claimed usage-count-descending order — the source sorts
only by `effectiveness_score`. -/
theorem C7_tiebreak_counterexample :
    sampleQuestionA.effectiveness_score = sampleQuestionB.effectiveness_score ∧
    sampleQuestionA.usage_count < sampleQuestionB.usage_count ∧
    getBestQuestions none none 5 [sampleQuestionA, sampleQuestionB] =
      [sampleQuestionA, sampleQuestionB] ∧
    getBestQuestionsSpec none none 5 [sampleQuestionA, sampleQuestionB] =
      [sampleQuestionB, sampleQuestionA] := by
  refine ⟨rfl, by decide, ?_⟩
  norm_num [getBestQuestions, getBestQuestionsSpec, filterQuestions, sortDescBy,
    List.insertionSort, List.orderedInsert, sortSpecOrder, insertSpecOrder,
    sampleQuestionA, sampleQuestionB]

/-- C7 amended: `get_best_questions` returns up to `count` questions of
the filtered pool, ordered by `effectiveness_score` descending with ties
broken by insertion order (earliest first) — the stable sort's filtered
subsequences witness the tie order; `usage_count` plays no part. -/
theorem C7_best_questions_order (category difficulty : Option PyVal)
    (count : Nat) (qs : List QuestionRecord) :
    (getBestQuestions category difficulty count qs).length ≤ count ∧
    (getBestQuestions category difficulty count qs).Sorted
      (fun a b => b.effectiveness_score ≤ a.effectiveness_score) ∧
    (∀ q ∈ getBestQuestions category difficulty count qs,
      q ∈ filterQuestions category difficulty qs) ∧
    (∀ k : ℚ, ∃ t,
      (filterQuestions category difficulty qs).filter
          (fun q => decide (q.effectiveness_score = k)) =
        (getBestQuestions category difficulty count qs).filter
            (fun q => decide (q.effectiveness_score = k)) ++ t) := by
  simp only [getBestQuestions]
  refine ⟨List.length_take_le _ _, ?_, ?_, ?_⟩
  · have hsorted : (sortDescBy (fun q : QuestionRecord => q.effectiveness_score)
        (filterQuestions category difficulty qs)).Pairwise
          (fun a b => b.effectiveness_score ≤ a.effectiveness_score) :=
      sortDescBy_sorted (fun q : QuestionRecord => q.effectiveness_score)
        (filterQuestions category difficulty qs)
    exact List.Pairwise.sublist (List.take_sublist _ _) hsorted
  · intro q hq
    exact (sortDescBy_perm (fun q => q.effectiveness_score)
      (filterQuestions category difficulty qs)).subset
      (List.take_subset _ _ hq)
  · intro k
    refine ⟨(List.drop count (sortDescBy (fun q => q.effectiveness_score)
      (filterQuestions category difficulty qs))).filter
        (fun q => decide (q.effectiveness_score = k)), ?_⟩
    rw [← filter_sortDescBy_key (fun q => q.effectiveness_score) k
      (filterQuestions category difficulty qs)]
    conv_lhs => rw [← List.take_append_drop count
      (sortDescBy (fun q => q.effectiveness_score)
        (filterQuestions category difficulty qs))]
    rw [List.filter_append]

theorem genQuestions_spec (oracle : Nat → Option QuestionRecord) :
    ∀ (n idx : Nat) (used : List Int),
      ((genQuestions oracle n idx used).1.map (fun q => q.id)).Nodup ∧
      (∀ q ∈ (genQuestions oracle n idx used).1, q.id ∉ used) ∧
      (genQuestions oracle n idx used).2.1 =
        ((genQuestions oracle n idx used).1.map (fun q => q.id)).reverse ++ used ∧
      (genQuestions oracle n idx used).1.length ≤ n
  | 0, idx, used => by simp [genQuestions]
  | n + 1, idx, used => by
    cases ho : oracle idx with
    | none =>
      obtain ⟨h1, h2, h3, h4⟩ := genQuestions_spec oracle n (idx + 1) used
      simp only [genQuestions, ho]
      exact ⟨h1, h2, h3, h4.trans (Nat.le_succ n)⟩
    | some q =>
      by_cases hm : q.id ∈ used
      · obtain ⟨h1, h2, h3, h4⟩ := genQuestions_spec oracle n (idx + 1) used
        simp only [genQuestions, ho, if_pos hm]
        exact ⟨h1, h2, h3, h4.trans (Nat.le_succ n)⟩
      · obtain ⟨h1, h2, h3, h4⟩ := genQuestions_spec oracle n (idx + 1) (q.id :: used)
        simp only [genQuestions, ho, if_neg hm]
        refine ⟨?_, ?_, ?_, ?_⟩
        · simp only [List.map_cons, List.nodup_cons]
          refine ⟨fun hmem => ?_, h1⟩
          obtain ⟨r, hr, hrid⟩ := List.mem_map.mp hmem
          exact h2 r hr (by rw [hrid]; exact List.mem_cons_self _ _)
        · intro p hp
          rcases List.mem_cons.mp hp with hp | hp
          · subst hp
            exact hm
          · exact fun hpu => h2 p hp (List.mem_cons_of_mem _ hpu)
        · rw [h3]
          simp [List.append_assoc]
        · simpa using Nat.succ_le_succ h4

theorem generateInterviewQuestions_spec (oracle : Nat → Option QuestionRecord)
    (idx : Nat) (used : List Int) (count : Nat) :
    ((generateInterviewQuestions oracle idx used count).1.map (fun q => q.id)).Nodup ∧
    (generateInterviewQuestions oracle idx used count).1.length ≤ count := by
  obtain ⟨hb1, hb2, hb3, _⟩ := genQuestions_spec oracle (count / 3 + 1) idx used
  obtain ⟨hi1, hi2, hi3, _⟩ := genQuestions_spec oracle (count / 3 + 1)
    (genQuestions oracle (count / 3 + 1) idx used).2.2
    (genQuestions oracle (count / 3 + 1) idx used).2.1
  obtain ⟨ha1, ha2, _, _⟩ := genQuestions_spec oracle (count / 3)
    (genQuestions oracle (count / 3 + 1)
      (genQuestions oracle (count / 3 + 1) idx used).2.2
      (genQuestions oracle (count / 3 + 1) idx used).2.1).2.2
    (genQuestions oracle (count / 3 + 1)
      (genQuestions oracle (count / 3 + 1) idx used).2.2
      (genQuestions oracle (count / 3 + 1) idx used).2.1).2.1
  set b := genQuestions oracle (count / 3 + 1) idx used
  set i := genQuestions oracle (count / 3 + 1) b.2.2 b.2.1
  set a := genQuestions oracle (count / 3) i.2.2 i.2.1
  have hbi : ∀ x, x ∈ b.1.map (fun q => q.id) → x ∉ i.1.map (fun q => q.id) := by
    intro x hxb hxi
    obtain ⟨r, hr, hrid⟩ := List.mem_map.mp hxi
    apply hi2 r hr
    rw [hb3, hrid]
    exact List.mem_append.mpr (Or.inl (List.mem_reverse.mpr hxb))
  have hba : ∀ x, x ∈ b.1.map (fun q => q.id) → x ∉ a.1.map (fun q => q.id) := by
    intro x hxb hxa
    obtain ⟨r, hr, hrid⟩ := List.mem_map.mp hxa
    apply ha2 r hr
    rw [hi3, hb3, hrid]
    exact List.mem_append.mpr (Or.inr
      (List.mem_append.mpr (Or.inl (List.mem_reverse.mpr hxb))))
  have hia : ∀ x, x ∈ i.1.map (fun q => q.id) → x ∉ a.1.map (fun q => q.id) := by
    intro x hxi hxa
    obtain ⟨r, hr, hrid⟩ := List.mem_map.mp hxa
    apply ha2 r hr
    rw [hi3, hrid]
    exact List.mem_append.mpr (Or.inl (List.mem_reverse.mpr hxi))
  have hnodup : ((b.1 ++ i.1 ++ a.1).map (fun q => q.id)).Nodup := by
    simp only [List.map_append]
    rw [List.nodup_append, List.nodup_append]
    refine ⟨⟨hb1, hi1, hbi⟩, ha1, ?_⟩
    intro x hx
    rcases List.mem_append.mp hx with hx | hx
    · exact hba x hx
    · exact hia x hx
  constructor
  · have : ((b.1 ++ i.1 ++ a.1).take count).map (fun q => q.id) =
        ((b.1 ++ i.1 ++ a.1).map (fun q => q.id)).take count := List.map_take _ _ _
    simp only [generateInterviewQuestions]
    rw [this]
    exact hnodup.sublist (List.take_sublist _ _)
  · simp only [generateInterviewQuestions]
    exact List.length_take_le _ _

theorem getBestQuestions_int_difficulty (category : Option PyVal) (n : Int)
    (count : Nat) (qs : List QuestionRecord) :
    getBestQuestions category (some (.int n)) count qs = [] := by
  have hf : filterQuestions category (some (.int n)) qs = [] := by
    simp only [filterQuestions]
    apply List.filter_eq_nil_iff.mpr
    intro q _
    simp
  rw [getBestQuestions, hf]
  simp [sortDescBy]

theorem balanceQuestionSelection_of_le (questions : List QuestionRecord)
    (target_count : Nat) (h : questions.length ≤ target_count) :
    balanceQuestionSelection questions target_count = questions := by
  rw [balanceQuestionSelection, if_pos h]

/-- C8: one call to the question selector returns at most `count`
questions, with no question id repeated, for every storage content, role,
requested count, generation oracle and pre-used id set. -/
theorem C8_selector_bounds (oracle : Nat → Option QuestionRecord) (idx : Nat)
    (used : List Int) (storage : List QuestionRecord) (role : String)
    (count : Nat) :
    (selectInterviewQuestions oracle idx used storage role count).length ≤ count ∧
    ((selectInterviewQuestions oracle idx used storage role count).map
      (fun q => q.id)).Nodup := by
  obtain ⟨hg1, hg2⟩ := generateInterviewQuestions_spec oracle idx used count
  have hstored := getBestQuestions_int_difficulty (some (.str role))
    (count : Int) 5 storage
  simp only [selectInterviewQuestions, hstored, List.length_nil, Nat.sub_zero,
    List.nil_append]
  by_cases hc : 0 < count
  · rw [if_pos hc, balanceQuestionSelection_of_le _ _ hg2]
    exact ⟨hg2, hg1⟩
  · rw [if_neg hc]
    have hc0 : count = 0 := by omega
    subst hc0
    simp [balanceQuestionSelection_of_le]

/-- C9: the stored-question lookup inside `_select_interview_questions`
passes `count` as the `difficulty` filter of `get_best_questions`; since
every stored record's difficulty is a string, the integer never matches
and the stored pool is empty, so the selected questions are exactly the
generator's output and the stored effectiveness data never influences
selection. -/
theorem C9_stored_pool_unused (oracle : Nat → Option QuestionRecord)
    (idx : Nat) (used : List Int) (storage : List QuestionRecord)
    (role : String) (count : Nat) :
    getBestQuestions (some (.str role)) (some (.int (count : Int))) 5 storage = [] ∧
    selectInterviewQuestions oracle idx used storage role count =
      (generateInterviewQuestions oracle idx used count).1 ∧
    selectInterviewQuestions oracle idx used storage role count =
      selectInterviewQuestions oracle idx used [] role count := by
  have hsel : ∀ st : List QuestionRecord,
      selectInterviewQuestions oracle idx used st role count =
        (generateInterviewQuestions oracle idx used count).1 := by
    intro st
    obtain ⟨_, hg2⟩ := generateInterviewQuestions_spec oracle idx used count
    have hstored := getBestQuestions_int_difficulty (some (.str role))
      (count : Int) 5 st
    simp only [selectInterviewQuestions, hstored, List.length_nil, Nat.sub_zero,
      List.nil_append]
    by_cases hc : 0 < count
    · rw [if_pos hc, balanceQuestionSelection_of_le _ _ hg2]
    · rw [if_neg hc]
      have hc0 : count = 0 := by omega
      subst hc0
      rw [List.take_nil, balanceQuestionSelection_of_le _ _ (by simp)]
      simp only [generateInterviewQuestions, List.take_zero]
  exact ⟨getBestQuestions_int_difficulty (some (.str role)) (count : Int) 5 storage,
    hsel storage, (hsel storage).trans (hsel []).symm⟩

theorem extractScore_range : ∀ lines : List (List Char),
    0 ≤ extractScore lines ∧ extractScore lines ≤ 100
  | [] => by simp [extractScore]
  | line :: rest => by
    simp only [extractScore]
    by_cases hmatch : (containsSub "score".toList (lowerStr line) ||
        containsSub "/100".toList line) = true
    · rw [if_pos hmatch]
      cases hd : firstDigitRun line with
      | some ds =>
        constructor
        · exact le_min (Int.ofNat_nonneg _) (by norm_num)
        · exact min_le_right _ _
      | none => exact extractScore_range rest
    · rw [if_neg hmatch]
      exact extractScore_range rest

/-- C10 counterexample: the text-fallback parse of the single line
"score: 3" extracts score 3 and then sets `depth = score - 10 = -7` and
`practical_application = score - 5 = -2`, both outside 0..100, so not
every evaluation path keeps all four fields within 0 to 100. -/
theorem C10_text_parse_counterexample :
    parseTextResponse "score: 3" =
      { score := 3, technical_accuracy := 3, depth := -7,
        practical_application := -2 } ∧
    (parseTextResponse "score: 3").depth < 0 := by
  decide

/-- C10 amended: the rule-based fallback keeps all four numeric fields
within 0 to 100 for every response; the text-fallback parse keeps `score`
and `technical_accuracy` within 0 to 100, but its `depth` and
`practical_application` are `score - 10` and `score - 5` and can fall
below 0 (see the counterexample); the structured parse passes the model's
values through with defaults but no clamping. -/
theorem C10_evaluation_ranges (response : String) :
    (0 ≤ (fallbackEvaluation response).score ∧
      (fallbackEvaluation response).score ≤ 100) ∧
    (0 ≤ (fallbackEvaluation response).technical_accuracy ∧
      (fallbackEvaluation response).technical_accuracy ≤ 100) ∧
    (0 ≤ (fallbackEvaluation response).depth ∧
      (fallbackEvaluation response).depth ≤ 100) ∧
    (0 ≤ (fallbackEvaluation response).practical_application ∧
      (fallbackEvaluation response).practical_application ≤ 100) ∧
    (0 ≤ (parseTextResponse response).score ∧
      (parseTextResponse response).score ≤ 100) ∧
    (0 ≤ (parseTextResponse response).technical_accuracy ∧
      (parseTextResponse response).technical_accuracy ≤ 100) := by
  obtain ⟨hs0, hs100⟩ := extractScore_range (splitLines response.toList)
  refine ⟨?_, ?_, ?_, ?_, ⟨hs0, hs100⟩, ⟨hs0, hs100⟩⟩ <;>
  · simp only [fallbackEvaluation]
    split_ifs <;> omega

end Spec2Proof
